import Mathlib

/-!
Verification of the thread-pinning fiber scheduler
(thread_locked_scheduler.hpp / thread_locked_scheduler.cpp).

The C++ policy is embedded state-passing style: the per-policy fields
(m_local_queue, m_flag, m_suspend) become a structure, the statics
(s_schedulers, s_current_scheduler) become fields of a pool state, fiber
contexts and fiber properties are passed in and returned explicitly.
Undefined behaviour in the dispatch path (indexing the empty worker vector
after a modulo by zero, or dereferencing a null intrusive_ptr slot) is
modelled by returning none.
-/

namespace TLS

/-- Fields of boost::fibers::context that the policy touches: whether the
runtime marks the context pinned (ctx->is_context(type::pinned_context)),
and which scheduler the context is currently attached to (owner = none
models a detached context). -/
structure fiber_context where
  pinned : Bool
  owner : Option Nat
deriving DecidableEq

/-- ctx->detach(): unlink the context from its owning scheduler. -/
def fiber_context.detach (c : fiber_context) : fiber_context :=
  { c with owner := none }

/-- sched->attach(ctx): link the context to scheduler sched. -/
def fiber_context.attach (c : fiber_context) (sched : Nat) : fiber_context :=
  { c with owner := some sched }

/-- ctx->is_context(boost::fibers::type::pinned_context). -/
def fiber_context.is_context_pinned (c : fiber_context) : Bool :=
  c.pinned

/-- thread_locked_props (hpp lines 56-78): the per-fiber property record.
The constructor initialises m_previously_awakened to false. -/
structure thread_locked_props where
  m_previously_awakened : Bool
deriving DecidableEq

/-- The state a freshly constructed thread_locked_props is in
(hpp lines 59-63): m_previously_awakened(false). -/
def thread_locked_props.init : thread_locked_props :=
  { m_previously_awakened := false }

/-- was_previously_awakened (hpp lines 64-67): return m_previously_awakened.
State-passing form: the body contains no assignment, so the receiver is
returned unchanged. -/
def thread_locked_props.was_previously_awakened (p : thread_locked_props) :
    Bool × thread_locked_props :=
  (p.m_previously_awakened, p)

/-- set_previously_awakened (hpp lines 68-75): if not already set, set
m_previously_awakened to true (the fiber_properties::notify() call inside
touches only runtime machinery outside this model). -/
def thread_locked_props.set_previously_awakened (p : thread_locked_props) :
    thread_locked_props :=
  if !p.m_previously_awakened then { m_previously_awakened := true }
  else p

/-- Per-instance fields of thread_locked_scheduler (hpp lines 226-229).
m_local_queue holds fiber contexts by id, FIFO; m_suspend is initialised
false by the constructor and never read afterwards. -/
structure thread_locked_scheduler where
  m_local_queue : List Nat
  m_flag : Bool
  m_suspend : Bool
deriving DecidableEq

/-- The member state the constructor (hpp lines 104-109) establishes:
empty queue, m_flag = false, m_suspend = false. -/
def defaultPolicy : thread_locked_scheduler :=
  { m_local_queue := [], m_flag := false, m_suspend := false }

/-- The pool: every policy instance by id (main included), plus the statics
of the class (cpp lines 17-21): s_schedulers, the vector of intrusive_ptr
worker slots (none models nullptr), and the counter s_current_scheduler. -/
structure PoolState where
  policies : List thread_locked_scheduler
  s_schedulers : List (Option Nat)
  s_current_scheduler : Nat
deriving DecidableEq

/-- Read policy instance i. -/
def getPolicy (sys : PoolState) (i : Nat) : thread_locked_scheduler :=
  (sys.policies[i]?).getD defaultPolicy

/-- Mutate policy instance i in place. -/
def updatePolicy (sys : PoolState) (i : Nat)
    (f : thread_locked_scheduler → thread_locked_scheduler) : PoolState :=
  { sys with policies := sys.policies.set i (f (getPolicy sys i)) }

/-- m_local_queue.push_back(*ctx) on policy i. -/
def pushLocal (sys : PoolState) (i : Nat) (ctxId : Nat) : PoolState :=
  updatePolicy sys i (fun p => { p with m_local_queue := p.m_local_queue ++ [ctxId] })

/-- accept (hpp lines 136-140): under s_mutex, push_back the handed-off
context onto this policy's local queue. -/
def accept (sys : PoolState) (self : Nat) (ctxId : Nat) : PoolState :=
  pushLocal sys self ctxId

/-- awakened (hpp lines 149-169). Pinned contexts go on the current local
queue. Otherwise the context is detached; a previously awakened fiber goes
on the current local queue, and a first wake runs the dispatch branch:
s_current_scheduler = ++s_current_scheduler % std::size(s_schedulers),
unlock, set_previously_awakened, read s_schedulers[s_current_scheduler],
next->accept(ctx). The result none models the undefined behaviour of the
dispatch branch: modulo by zero together with indexing the empty vector
(thread_count == 1), or dereferencing a still-null slot. -/
def awakened (sys : PoolState) (self : Nat) (ctxId : Nat) (ctx : fiber_context)
    (props : thread_locked_props) :
    Option (PoolState × fiber_context × thread_locked_props) :=
  if ctx.is_context_pinned then
    some (pushLocal sys self ctxId, ctx, props)
  else
    let ctx2 := ctx.detach
    if (props.was_previously_awakened).1 then
      some (pushLocal sys self ctxId, ctx2, props)
    else
      let len := sys.s_schedulers.length
      let incremented := sys.s_current_scheduler + 1
      let cur := incremented % len
      let sys2 : PoolState := { sys with s_current_scheduler := cur }
      let props2 := props.set_previously_awakened
      match sys2.s_schedulers[cur]? with
      | none => none
      | some none => none
      | some (some next) => some (accept sys2 next ctxId, ctx2, props2)

/-- pick_next (hpp lines 172-188): pop the front of the local queue if any;
outside the lock, a non-pinned context is attached to the active context,
i.e. re-owned by this worker's scheduler. ctxOf resolves a queued id to its
context record. -/
def pick_next (sys : PoolState) (self : Nat) (ctxOf : Nat → fiber_context) :
    Option (Nat × fiber_context) × PoolState :=
  match (getPolicy sys self).m_local_queue with
  | [] => (none, sys)
  | c :: rest =>
      let sys2 := updatePolicy sys self (fun p => { p with m_local_queue := rest })
      let ctx := ctxOf c
      let ctx2 := if ctx.is_context_pinned then ctx else ctx.attach self
      (some (c, ctx2), sys2)

/-- has_ready_fibers (hpp lines 192-196): a const member, so pure here;
under s_mutex, report whether the local queue is non-empty. -/
def has_ready_fibers (sys : PoolState) (self : Nat) : Bool :=
  !(getPolicy sys self).m_local_queue.isEmpty

/-- notify (hpp lines 213-219): under s_mutex set m_flag = true (the
condition-variable signal carries no state of its own). -/
def notify (sys : PoolState) (self : Nat) : PoolState :=
  updatePolicy sys self (fun p => { p with m_flag := true })

/-- The call_once body of the constructor (hpp lines 115-118):
scheduler_list_t{thread_count - 1, nullptr}.swap(s_schedulers). -/
def freshSchedulers (thread_count : Nat) : List (Option Nat) :=
  List.replicate (thread_count - 1) none

/-- The pool state right after the call_once allocation, before any worker
registers: policies constructed, all slots null, counter 0 (cpp line 18). -/
def initialPool (thread_count : Nat) (ps : List thread_locked_scheduler) : PoolState :=
  { policies := ps, s_schedulers := freshSchedulers thread_count,
    s_current_scheduler := 0 }

/-- Registration in a non-main constructor (hpp lines 122-124):
s_schedulers[s_current_scheduler++] = this. -/
def registerWorker (sys : PoolState) (pid : Nat) : PoolState :=
  { sys with
    s_schedulers := sys.s_schedulers.set sys.s_current_scheduler (some pid),
    s_current_scheduler := sys.s_current_scheduler + 1 }

/-- Successive registrations of the worker policies, in construction order. -/
def registerAll (sys : PoolState) (pids : List Nat) : PoolState :=
  pids.foldl registerWorker sys

/-- Cursor evolution under k successive first-wake dispatches, each applying
the net cursor update of awakened (hpp line 161). -/
def cursorAfterDispatches (len : Nat) : Nat → Nat → Nat
  | cur, 0 => cur
  | cur, k + 1 => cursorAfterDispatches len ((cur + 1) % len) k

/-- The atomic statements of the policy code whose order and lock scope
matter: acquiring and releasing s_mutex, and the individual actions of
awakened and accept. -/
inductive Step where
  | lock_acquire
  | lock_release
  | pinned_check
  | push_local
  | detach_ctx
  | check_awakened_before
  | cursor_advance
  | set_awakened_before
  | read_target_slot
  | call_accept
deriving DecidableEq

/-- Statement order of the first-wake (dispatch) branch of awakened, hpp
lines 151-166: acquire s_mutex, test pinned_context, ctx->detach(), test
was_previously_awakened(), update s_current_scheduler, lock.unlock(),
props.set_previously_awakened(), read s_schedulers[s_current_scheduler],
next->accept(ctx). -/
def awakenedDispatchSteps : List Step :=
  [Step.lock_acquire, Step.pinned_check, Step.detach_ctx,
   Step.check_awakened_before, Step.cursor_advance, Step.lock_release,
   Step.set_awakened_before, Step.read_target_slot, Step.call_accept]

/-- Statement order of accept, hpp lines 136-140: the lock_guard acquires
s_mutex, push_back runs, the guard releases at scope end. -/
def acceptSteps : List Step :=
  [Step.lock_acquire, Step.push_local, Step.lock_release]

/-- Whether s_mutex is held right after executing one step, given whether
it was held before. -/
def holdsAfter (held : Bool) : Step → Bool
  | Step.lock_acquire => true
  | Step.lock_release => false
  | _ => held

/-- Annotate each step of a trace with the lock state in force while it
executes. -/
def annotSteps : Bool → List Step → List (Step × Bool)
  | _, [] => []
  | held, s :: rest =>
      (s, holdsAfter held s) :: annotSteps (holdsAfter held s) rest

/-- Is s_mutex held while step s of trace tr executes (trace entered with
the mutex free)? -/
def underMutex (tr : List Step) (s : Step) : Bool :=
  match (annotSteps false tr).find? (fun p => decide (p.1 = s)) with
  | some p => p.2
  | none => false

/-- Position of step s in trace tr. -/
def stepIdx (tr : List Step) (s : Step) : Nat :=
  tr.findIdx (fun x => decide (x = s))

/-- Smallest element of a list of instants. -/
def minList : List Nat → Option Nat
  | [] => none
  | x :: xs =>
      match minList xs with
      | none => some x
      | some m => some (min x m)

/-- Discrete-time model of the m_flag latch as the waiter observes it
during one suspend_until call: flag0 is m_flag on entry and ns lists the
instants at which peer notify() calls set it; once set it stays set until
the waiter clears it on return. -/
def flagAt (flag0 : Bool) (ns : List Nat) (t : Nat) : Bool :=
  flag0 || ns.any (fun u => decide (u ≤ t))

/-- Return instant of m_condition.wait(lock, pred) entered at t0 with
pred = (m_flag == true): the earliest instant at or after t0 at which the
flag is observed set, none if that never happens. -/
def waitForeverReturn (flag0 : Bool) (ns : List Nat) (t0 : Nat) : Option Nat :=
  if flag0 then some t0
  else (minList ns).map (fun m => max t0 m)

/-- Return instant of m_condition.wait_until(lock, d, pred) entered at t0:
the earliest instant at or after t0 at which the flag is observed set or
the deadline d has been reached. -/
def waitDeadlineReturn (flag0 : Bool) (ns : List Nat) (t0 : Nat) (d : Nat) : Nat :=
  match waitForeverReturn flag0 ns t0 with
  | none => max t0 d
  | some r => min r (max t0 d)

/-- suspend_until (hpp lines 199-211) in the discrete-time model. tp = none
is the forever sentinel (std::chrono::steady_clock::time_point::max), tp =
some d a finite deadline. The result pairs the return instant (none when
the wait never unblocks) with m_flag as left on return: both branches end
with m_flag = false. -/
def suspend_until (flag0 : Bool) (ns : List Nat) (t0 : Nat) (tp : Option Nat) :
    Option Nat × Bool :=
  match tp with
  | none => (waitForeverReturn flag0 ns t0, false)
  | some d => (some (waitDeadlineReturn flag0 ns t0 d), false)

/-! Helper lemmas. -/

lemma getPolicy_updatePolicy (sys : PoolState) (i j : Nat)
    (f : thread_locked_scheduler → thread_locked_scheduler) :
    getPolicy (updatePolicy sys i f) j =
      if i = j ∧ i < sys.policies.length then f (getPolicy sys i)
      else getPolicy sys j := by
  unfold getPolicy updatePolicy
  simp only [List.getElem?_set]
  by_cases h1 : i = j
  · subst h1
    by_cases h2 : i < sys.policies.length
    · simp [h2, getPolicy, List.getElem?_eq_getElem h2]
    · simp [h2, List.getElem?_eq_none (Nat.le_of_not_lt h2)]
  · simp [h1]

lemma getPolicy_pushLocal (sys : PoolState) (i j c : Nat) :
    getPolicy (pushLocal sys i c) j =
      if i = j ∧ i < sys.policies.length then
        { getPolicy sys i with
          m_local_queue := (getPolicy sys i).m_local_queue ++ [c] }
      else getPolicy sys j := by
  unfold pushLocal
  exact getPolicy_updatePolicy sys i j _

lemma m_flag_pushLocal (sys : PoolState) (i j c : Nat) :
    (getPolicy (pushLocal sys i c) j).m_flag = (getPolicy sys j).m_flag := by
  rw [getPolicy_pushLocal]
  by_cases h : i = j ∧ i < sys.policies.length
  · rcases h with ⟨h1, h2⟩
    subst h1
    simp [h2]
  · simp [h]

lemma minList_mem (ns : List Nat) (m : Nat) (h : minList ns = some m) : m ∈ ns := by
  induction ns generalizing m with
  | nil => simp [minList] at h
  | cons x xs ih =>
      unfold minList at h
      cases hx : minList xs with
      | none =>
          rw [hx] at h
          simp at h
          simp [h]
      | some m2 =>
          rw [hx] at h
          simp at h
          rcases Nat.le_total x m2 with hle | hle
          · have hm : m = x := by
              rw [← h]
              exact Nat.min_eq_left hle
            simp [hm]
          · have hm : m = m2 := by
              rw [← h]
              exact Nat.min_eq_right hle
            have hmem := ih m2 hx
            simp [hm, hmem]

lemma registerAll_cursor (pids : List Nat) (sys : PoolState) :
    (registerAll sys pids).s_current_scheduler =
      sys.s_current_scheduler + pids.length := by
  induction pids generalizing sys with
  | nil => simp [registerAll]
  | cons p ps ih =>
      unfold registerAll at ih ⊢
      rw [List.foldl_cons, ih]
      simp [registerWorker]
      omega

lemma registerAll_policies (pids : List Nat) (sys : PoolState) :
    (registerAll sys pids).policies = sys.policies := by
  induction pids generalizing sys with
  | nil => simp [registerAll]
  | cons p ps ih =>
      unfold registerAll at ih ⊢
      rw [List.foldl_cons, ih]
      rfl

lemma registerAll_length (pids : List Nat) (sys : PoolState) :
    (registerAll sys pids).s_schedulers.length = sys.s_schedulers.length := by
  induction pids generalizing sys with
  | nil => simp [registerAll]
  | cons p ps ih =>
      unfold registerAll at ih ⊢
      rw [List.foldl_cons, ih]
      simp [registerWorker]

lemma registerAll_slot_frame (pids : List Nat) (sys : PoolState) (i : Nat)
    (h : i < sys.s_current_scheduler) :
    (registerAll sys pids).s_schedulers[i]? = sys.s_schedulers[i]? := by
  induction pids generalizing sys with
  | nil => simp [registerAll]
  | cons p ps ih =>
      unfold registerAll at ih ⊢
      rw [List.foldl_cons]
      rw [ih (registerWorker sys p) (by simp [registerWorker]; omega)]
      simp [registerWorker]
      rw [List.getElem?_set_ne (by omega)]

lemma registerAll_slot (pids : List Nat) (sys : PoolState) (j : Nat)
    (hj : j < pids.length)
    (hlen : sys.s_current_scheduler + pids.length ≤ sys.s_schedulers.length) :
    (registerAll sys pids).s_schedulers[sys.s_current_scheduler + j]? =
      some (some (pids.getD j 0)) := by
  induction pids generalizing sys j with
  | nil => simp at hj
  | cons p ps ih =>
      unfold registerAll
      rw [List.foldl_cons]
      cases j with
      | zero =>
          have hcur : sys.s_current_scheduler < sys.s_schedulers.length := by
            simp at hlen
            omega
          have hfr := registerAll_slot_frame ps (registerWorker sys p)
            sys.s_current_scheduler (by simp [registerWorker])
          unfold registerAll at hfr
          rw [Nat.add_zero, hfr]
          simp [registerWorker, List.getElem?_set_self hcur]
      | succ j2 =>
          have := ih (registerWorker sys p) j2 (by simp at hj; omega)
            (by simp [registerWorker, List.length_set]; simp at hlen; omega)
          unfold registerAll at this
          simp [registerWorker] at this
          rw [show sys.s_current_scheduler + (j2 + 1) =
                sys.s_current_scheduler + 1 + j2 by omega]
          simp [registerWorker]
          rw [this]

lemma cursorAfterDispatches_formula (len : Nat) :
    ∀ (k cur : Nat),
      cursorAfterDispatches len cur (k + 1) = (cur + (k + 1)) % len := by
  intro k
  induction k with
  | zero =>
      intro cur
      simp [cursorAfterDispatches]
  | succ k2 ih =>
      intro cur
      show cursorAfterDispatches len ((cur + 1) % len) (k2 + 1) = _
      rw [ih ((cur + 1) % len), Nat.mod_add_mod]
      congr 1
      omega

lemma awakened_pinned_eq (sys : PoolState) (self cid : Nat)
    (ctx : fiber_context) (props : thread_locked_props)
    (hpin : ctx.pinned = true) :
    awakened sys self cid ctx props =
      some (pushLocal sys self cid, ctx, props) := by
  unfold awakened
  simp [fiber_context.is_context_pinned, hpin]

lemma awakened_subsequent_eq (sys : PoolState) (self cid : Nat)
    (ctx : fiber_context) (props : thread_locked_props)
    (hpin : ctx.pinned = false)
    (hprev : props.m_previously_awakened = true) :
    awakened sys self cid ctx props =
      some (pushLocal sys self cid, ctx.detach, props) := by
  unfold awakened
  simp [fiber_context.is_context_pinned, hpin,
    thread_locked_props.was_previously_awakened, hprev]

lemma awakened_dispatch_eq (sys : PoolState) (self cid target : Nat)
    (ctx : fiber_context) (props : thread_locked_props)
    (hpin : ctx.pinned = false)
    (hfst : props.m_previously_awakened = false)
    (hslot :
      sys.s_schedulers[(sys.s_current_scheduler + 1) % sys.s_schedulers.length]? =
        some (some target)) :
    awakened sys self cid ctx props =
      some
        (accept
          { sys with
            s_current_scheduler :=
              (sys.s_current_scheduler + 1) % sys.s_schedulers.length }
          target cid,
         ctx.detach, props.set_previously_awakened) := by
  unfold awakened
  simp [fiber_context.is_context_pinned, hpin,
    thread_locked_props.was_previously_awakened, hfst, hslot]

lemma lt_length_of_queue_ne_nil (sys : PoolState) (self : Nat)
    (h : (getPolicy sys self).m_local_queue ≠ []) :
    self < sys.policies.length := by
  by_contra hge
  have hnone : sys.policies[self]? = none :=
    List.getElem?_eq_none (Nat.le_of_not_lt hge)
  simp [getPolicy, hnone, defaultPolicy] at h

lemma m_flag_updatePolicy (sys : PoolState) (i j : Nat)
    (f : thread_locked_scheduler → thread_locked_scheduler)
    (hf : ∀ p, (f p).m_flag = p.m_flag) :
    (getPolicy (updatePolicy sys i f) j).m_flag = (getPolicy sys j).m_flag := by
  rw [getPolicy_updatePolicy]
  by_cases h : i = j ∧ i < sys.policies.length
  · rcases h with ⟨h1, h2⟩
    subst h1
    simp [h2, hf]
  · simp [h]

lemma waitForeverReturn_ge (flag0 : Bool) (ns : List Nat) (t0 r : Nat)
    (h : waitForeverReturn flag0 ns t0 = some r) : t0 ≤ r := by
  unfold waitForeverReturn at h
  cases flag0 with
  | true =>
      simp at h
      omega
  | false =>
      simp at h
      rcases h with ⟨m, _, hr⟩
      omega

/-! Claim theorems. -/

/-- C8: a fiber property starts with awakened_before false;
set_previously_awakened makes was_previously_awakened report true and is
idempotent; neither property operation nor awakened ever resets the flag to
false; and was_previously_awakened leaves the property unchanged. -/
theorem C8_awakened_before_one_way :
    thread_locked_props.init.m_previously_awakened = false ∧
    (∀ p : thread_locked_props,
      (p.set_previously_awakened.was_previously_awakened).1 = true) ∧
    (∀ p : thread_locked_props,
      p.set_previously_awakened.set_previously_awakened =
        p.set_previously_awakened) ∧
    (∀ p : thread_locked_props, p.m_previously_awakened = true →
      p.set_previously_awakened.m_previously_awakened = true ∧
      ((p.was_previously_awakened).2).m_previously_awakened = true) ∧
    (∀ (sys : PoolState) (self cid : Nat) (ctx : fiber_context)
        (props : thread_locked_props)
        (out : PoolState × fiber_context × thread_locked_props),
      awakened sys self cid ctx props = some out →
      props.m_previously_awakened = true →
      out.2.2.m_previously_awakened = true) ∧
    (∀ p : thread_locked_props, (p.was_previously_awakened).2 = p) := by
  refine ⟨rfl, ?_, ?_, ?_, ?_, ?_⟩
  · rintro ⟨b⟩
    cases b <;> rfl
  · rintro ⟨b⟩
    cases b <;> rfl
  · rintro ⟨b⟩ hb
    cases b
    · simp at hb
    · exact ⟨rfl, rfl⟩
  · intro sys self cid ctx props out hout hprev
    cases hpin : ctx.pinned with
    | true =>
        rw [awakened_pinned_eq sys self cid ctx props hpin] at hout
        have h := Option.some.inj hout
        rw [← h]
        exact hprev
    | false =>
        rw [awakened_subsequent_eq sys self cid ctx props hpin hprev] at hout
        have h := Option.some.inj hout
        rw [← h]
        exact hprev
  · rintro ⟨b⟩
    rfl

/-- C8 witness: the one-way transition exercised at a concrete property. -/
theorem C8_awakened_before_one_way_witness :
    (⟨true⟩ : thread_locked_props).m_previously_awakened = true ∧
    ((⟨true⟩ : thread_locked_props).set_previously_awakened.m_previously_awakened
        = true ∧
      (((⟨true⟩ : thread_locked_props).was_previously_awakened).2).m_previously_awakened
        = true) :=
  ⟨by decide, C8_awakened_before_one_way.2.2.2.1 ⟨true⟩ (by decide)⟩

/-- C6: pick_next yields none exactly when the local queue is empty and in
that case changes nothing; on a non-empty queue it pops and returns the
front, leaving the rest in order; has_ready_fibers (a const member, hence a
pure function here) reports exactly non-emptiness. -/
theorem C6_pick_next_fifo (sys : PoolState) (self : Nat)
    (ctxOf : Nat → fiber_context) :
    ((pick_next sys self ctxOf).1 = none ↔
      (getPolicy sys self).m_local_queue = []) ∧
    ((getPolicy sys self).m_local_queue = [] →
      (pick_next sys self ctxOf).2 = sys) ∧
    (∀ c rest, (getPolicy sys self).m_local_queue = c :: rest →
      (pick_next sys self ctxOf).1 =
        some (c, if (ctxOf c).is_context_pinned then ctxOf c
                 else (ctxOf c).attach self) ∧
      (getPolicy (pick_next sys self ctxOf).2 self).m_local_queue = rest) ∧
    (has_ready_fibers sys self = true ↔
      (getPolicy sys self).m_local_queue ≠ []) := by
  cases hq : (getPolicy sys self).m_local_queue with
  | nil =>
      refine ⟨by simp [pick_next, hq], by simp [pick_next, hq], ?_, ?_⟩
      · intro c rest heq
        simp at heq
      · simp [has_ready_fibers, hq]
  | cons c0 rest0 =>
      have hlt : self < sys.policies.length := by
        apply lt_length_of_queue_ne_nil
        rw [hq]
        simp
      refine ⟨by simp [pick_next, hq], ?_, ?_, ?_⟩
      · intro habs
        simp at habs
      · intro c rest heq
        injection heq with h1 h2
        subst h1
        subst h2
        constructor
        · simp [pick_next, hq]
        · simp only [pick_next, hq]
          rw [getPolicy_updatePolicy]
          simp [hlt]
      · simp [has_ready_fibers, hq]

/-- C6 witness: FIFO pop on a concrete two-element queue. -/
theorem C6_pick_next_fifo_witness :
    (getPolicy ⟨[⟨[4, 7], false, false⟩], [], 0⟩ 0).m_local_queue = 4 :: [7] ∧
    ((pick_next ⟨[⟨[4, 7], false, false⟩], [], 0⟩ 0
        (fun _ => ⟨false, none⟩)).1 =
      some (4, if (fiber_context.is_context_pinned ⟨false, none⟩)
                then (⟨false, none⟩ : fiber_context)
                else fiber_context.attach ⟨false, none⟩ 0) ∧
      (getPolicy (pick_next ⟨[⟨[4, 7], false, false⟩], [], 0⟩ 0
          (fun _ => ⟨false, none⟩)).2 0).m_local_queue = [7]) :=
  ⟨by decide,
    (C6_pick_next_fifo ⟨[⟨[4, 7], false, false⟩], [], 0⟩ 0
      (fun _ => ⟨false, none⟩)).2.2.1 4 [7] (by decide)⟩

/-- C3: a pinned context is enqueued on the notifying policy's own queue
whatever awakened_before says, with context and property untouched (so
awakened never detaches it); and pick_next returns a pinned context without
the attach step, so its owner never changes. -/
theorem C3_pinned_context (sys : PoolState) (self cid : Nat)
    (ctx : fiber_context) (props : thread_locked_props)
    (ctxOf : Nat → fiber_context)
    (hpin : ctx.pinned = true)
    (hself : self < sys.policies.length) :
    awakened sys self cid ctx props =
      some (pushLocal sys self cid, ctx, props) ∧
    (getPolicy (pushLocal sys self cid) self).m_local_queue =
      (getPolicy sys self).m_local_queue ++ [cid] ∧
    (∀ c rest, (getPolicy sys self).m_local_queue = c :: rest →
      (ctxOf c).pinned = true →
      (pick_next sys self ctxOf).1 = some (c, ctxOf c)) := by
  refine ⟨awakened_pinned_eq sys self cid ctx props hpin, ?_, ?_⟩
  · rw [getPolicy_pushLocal]
    simp [hself]
  · intro c rest heq hcpin
    simp [pick_next, heq, fiber_context.is_context_pinned, hcpin]

/-- C3 witness: a pinned context handled by awakened and pick_next on a
concrete pool. -/
theorem C3_pinned_context_witness :
    ((⟨true, some 0⟩ : fiber_context).pinned = true ∧
      (0 : Nat) < (⟨[⟨[9], false, false⟩], [], 0⟩ : PoolState).policies.length) ∧
    (awakened ⟨[⟨[9], false, false⟩], [], 0⟩ 0 5 ⟨true, some 0⟩ ⟨true⟩ =
      some (pushLocal ⟨[⟨[9], false, false⟩], [], 0⟩ 0 5,
        ⟨true, some 0⟩, ⟨true⟩)) :=
  ⟨⟨by decide, by decide⟩,
    (C3_pinned_context ⟨[⟨[9], false, false⟩], [], 0⟩ 0 5 ⟨true, some 0⟩ ⟨true⟩
      (fun _ => ⟨true, some 0⟩) (by decide) (by decide)).1⟩

/-- C2 counterexample: on a subsequent wake (awakened_before already true)
of a non-pinned context the code still detaches the context, contrary to
the claim that detachment happens only in the first-wake branch: at this
concrete input the context goes in owned by scheduler 0 and comes out
detached. -/
theorem C2_counterexample :
    (awakened ⟨[defaultPolicy], [], 0⟩ 0 5 ⟨false, some 0⟩ ⟨true⟩).map
        (fun out => out.2.1) = some ⟨false, none⟩ ∧
    (⟨false, none⟩ : fiber_context) ≠ ⟨false, some 0⟩ := by
  exact ⟨by decide, by decide⟩

/-- C2 amended: on a subsequent wake of a non-pinned context, awakened
appends the context to the calling policy's own local queue and leaves the
property, the cursor, the registry slots and every other policy unchanged;
the context however is detached, since ctx->detach() precedes the
awakened_before test and so runs on every non-pinned wake, not only the
first. -/
theorem C2_subsequent_wake (sys : PoolState) (self cid : Nat)
    (ctx : fiber_context) (props : thread_locked_props)
    (hpin : ctx.pinned = false)
    (hprev : props.m_previously_awakened = true)
    (hself : self < sys.policies.length) :
    awakened sys self cid ctx props =
      some (pushLocal sys self cid, ctx.detach, props) ∧
    (getPolicy (pushLocal sys self cid) self).m_local_queue =
      (getPolicy sys self).m_local_queue ++ [cid] ∧
    (pushLocal sys self cid).s_current_scheduler = sys.s_current_scheduler ∧
    (pushLocal sys self cid).s_schedulers = sys.s_schedulers ∧
    (∀ j, j ≠ self → getPolicy (pushLocal sys self cid) j = getPolicy sys j) ∧
    (ctx.detach).owner = none := by
  refine ⟨awakened_subsequent_eq sys self cid ctx props hpin hprev, ?_, rfl, rfl,
    ?_, rfl⟩
  · rw [getPolicy_pushLocal]
    simp [hself]
  · intro j hj
    rw [getPolicy_pushLocal]
    have hne : ¬ (self = j ∧ self < sys.policies.length) := by
      intro hcon
      exact hj hcon.1.symm
    simp [hne]

/-- C2 amended witness: a concrete subsequent wake. -/
theorem C2_subsequent_wake_witness :
    ((⟨false, some 0⟩ : fiber_context).pinned = false ∧
      (⟨true⟩ : thread_locked_props).m_previously_awakened = true ∧
      (0 : Nat) < (⟨[defaultPolicy], [], 0⟩ : PoolState).policies.length) ∧
    (awakened ⟨[defaultPolicy], [], 0⟩ 0 5 ⟨false, some 0⟩ ⟨true⟩ =
      some (pushLocal ⟨[defaultPolicy], [], 0⟩ 0 5,
        fiber_context.detach ⟨false, some 0⟩, ⟨true⟩)) :=
  ⟨⟨by decide, by decide, by decide⟩,
    (C2_subsequent_wake ⟨[defaultPolicy], [], 0⟩ 0 5 ⟨false, some 0⟩ ⟨true⟩
      (by decide) (by decide) (by decide)).1⟩

/-- C1: a first wake of a non-pinned context detaches it, advances the
shared cursor by exactly one modulo the worker-list length (the double
modification of s_current_scheduler nets a single advance), marks the
property only after the target has been chosen (the cursor advance precedes
set_previously_awakened in statement order), and target.accept appends the
context to the back of the chosen target's local queue. -/
theorem C1_first_wake_dispatch (sys : PoolState) (self cid target : Nat)
    (ctx : fiber_context) (props : thread_locked_props)
    (hpin : ctx.pinned = false)
    (hfst : props.m_previously_awakened = false)
    (hslot :
      sys.s_schedulers[(sys.s_current_scheduler + 1) %
        sys.s_schedulers.length]? = some (some target))
    (htar : target < sys.policies.length) :
    ∃ out : PoolState × fiber_context × thread_locked_props,
      awakened sys self cid ctx props = some out ∧
      out.2.1.owner = none ∧
      out.1.s_current_scheduler =
        (sys.s_current_scheduler + 1) % sys.s_schedulers.length ∧
      out.2.2.m_previously_awakened = true ∧
      (getPolicy out.1 target).m_local_queue =
        (getPolicy sys target).m_local_queue ++ [cid] ∧
      stepIdx awakenedDispatchSteps Step.cursor_advance <
        stepIdx awakenedDispatchSteps Step.set_awakened_before := by
  refine ⟨_, awakened_dispatch_eq sys self cid target ctx props hpin hfst hslot,
    rfl, rfl, ?_, ?_, by decide⟩
  · simp [thread_locked_props.set_previously_awakened, hfst]
  · unfold accept
    rw [getPolicy_pushLocal]
    simp [htar]
    rfl

/-- C1 witness: a concrete first wake on a pool with one worker slot. -/
theorem C1_first_wake_dispatch_witness :
    (⟨[defaultPolicy, defaultPolicy], [some 1], 0⟩ : PoolState).s_schedulers[
        ((⟨[defaultPolicy, defaultPolicy], [some 1], 0⟩ : PoolState).s_current_scheduler
          + 1) %
        (⟨[defaultPolicy, defaultPolicy], [some 1], 0⟩ :
          PoolState).s_schedulers.length]? = some (some 1) ∧
    ∃ out : PoolState × fiber_context × thread_locked_props,
      awakened ⟨[defaultPolicy, defaultPolicy], [some 1], 0⟩ 0 5
        ⟨false, some 0⟩ ⟨false⟩ = some out ∧
      out.2.1.owner = none ∧
      out.2.2.m_previously_awakened = true :=
  ⟨by decide, by
    obtain ⟨out, h1, h2, _, h4, _⟩ :=
      C1_first_wake_dispatch ⟨[defaultPolicy, defaultPolicy], [some 1], 0⟩ 0 5 1
        ⟨false, some 0⟩ ⟨false⟩ (by decide) (by decide) (by decide) (by decide)
    exact ⟨out, h1, h2, h4⟩⟩

/-- C4 counterexample: with thread_count = 3 the call_once body allocates
scheduler_list_t{thread_count - 1, nullptr}, so the registry has length 2,
not the claimed length of thread_count = 3. -/
theorem C4_counterexample :
    (initialPool 3 []).s_schedulers.length = 2 ∧ (2 : Nat) ≠ 3 :=
  ⟨by decide, by decide⟩

/-- C4 amended: the registry is allocated once with fixed length
thread_count - 1 (the main policy occupies no slot) and registration keeps
that length; the j-th registering worker post-increments the shared counter
from j to j + 1 and writes precisely slot j, so each slot i below
thread_count - 1 is written exactly once, by the i-th worker to register,
and afterwards holds that worker. -/
theorem C4_registry_slots (tc : Nat) (ps : List thread_locked_scheduler)
    (pids : List Nat) (hlen : pids.length = tc - 1) :
    (initialPool tc ps).s_schedulers.length = tc - 1 ∧
    (registerAll (initialPool tc ps) pids).s_schedulers.length = tc - 1 ∧
    (∀ (sys : PoolState) (pid : Nat),
      (registerWorker sys pid).s_schedulers =
        sys.s_schedulers.set sys.s_current_scheduler (some pid) ∧
      (registerWorker sys pid).s_current_scheduler =
        sys.s_current_scheduler + 1) ∧
    (∀ j, j ≤ pids.length →
      (registerAll (initialPool tc ps) (pids.take j)).s_current_scheduler = j) ∧
    (∀ i, i < tc - 1 →
      (registerAll (initialPool tc ps) pids).s_schedulers[i]? =
        some (some (pids.getD i 0))) := by
  refine ⟨?_, ?_, ?_, ?_, ?_⟩
  · simp [initialPool, freshSchedulers]
  · rw [registerAll_length]
    simp [initialPool, freshSchedulers]
  · intro sys pid
    exact ⟨rfl, rfl⟩
  · intro j hj
    rw [registerAll_cursor]
    simp [initialPool]
    omega
  · intro i hi
    have hs := registerAll_slot pids (initialPool tc ps) i (by omega)
      (by simp [initialPool, freshSchedulers]; omega)
    simpa [initialPool] using hs

/-- C4 amended witness: three constructors (thread_count = 3), two workers
registering into the two slots. -/
theorem C4_registry_slots_witness :
    ([10, 11] : List Nat).length = 3 - 1 ∧
    (initialPool 3 []).s_schedulers.length = 3 - 1 ∧
    (∀ i, i < 3 - 1 →
      (registerAll (initialPool 3 []) [10, 11]).s_schedulers[i]? =
        some (some (([10, 11] : List Nat).getD i 0))) :=
  ⟨by decide, (C4_registry_slots 3 [] [10, 11] (by decide)).1,
    (C4_registry_slots 3 [] [10, 11] (by decide)).2.2.2.2⟩

/-- C5 counterexample: the claim puts both the cursor advance and the
target-slot dereference under the global mutex, but in the code the slot
s_schedulers[s_current_scheduler] is read after lock.unlock(). -/
theorem C5_counterexample :
    ¬ (underMutex awakenedDispatchSteps Step.cursor_advance = true ∧
       underMutex awakenedDispatchSteps Step.read_target_slot = true) := by
  decide

/-- C5 amended: the cursor advance is performed under the global mutex; the
mutex is released before the target slot is dereferenced and hence before
target.accept is called; and accept acquires the same global mutex around
its push_back. -/
theorem C5_mutex_discipline :
    underMutex awakenedDispatchSteps Step.cursor_advance = true ∧
    underMutex awakenedDispatchSteps Step.read_target_slot = false ∧
    stepIdx awakenedDispatchSteps Step.lock_release <
      stepIdx awakenedDispatchSteps Step.read_target_slot ∧
    stepIdx awakenedDispatchSteps Step.read_target_slot <
      stepIdx awakenedDispatchSteps Step.call_accept ∧
    underMutex awakenedDispatchSteps Step.call_accept = false ∧
    Step.lock_acquire ∈ acceptSteps ∧
    underMutex acceptSteps Step.push_local = true := by
  decide

/-- C7: suspend_until leaves wake_flag false in both the forever-sentinel
and the deadline branch; the forever branch unblocks only at an instant
where the flag is observed true, which from a false flag takes a notify;
among the policy operations only notify raises a flag; and the deadline
branch never waits past the deadline, returning at once when the deadline
has already passed. -/
theorem C7_suspend_until_notify (flag0 : Bool) (ns : List Nat) (t0 d : Nat) :
    ((suspend_until flag0 ns t0 none).2 = false ∧
     (suspend_until flag0 ns t0 (some d)).2 = false) ∧
    (∀ r, (suspend_until flag0 ns t0 none).1 = some r →
      flagAt flag0 ns r = true) ∧
    (∀ r, flag0 = false → (suspend_until flag0 ns t0 none).1 = some r →
      ∃ u, u ∈ ns ∧ u ≤ r) ∧
    (∀ (sys : PoolState) (i self cid : Nat) (ctx : fiber_context)
        (props : thread_locked_props),
      (getPolicy (accept sys self cid) i).m_flag = (getPolicy sys i).m_flag ∧
      (∀ out, awakened sys self cid ctx props = some out →
        (getPolicy out.1 i).m_flag = (getPolicy sys i).m_flag) ∧
      (∀ ctxOf, (getPolicy (pick_next sys self ctxOf).2 i).m_flag =
        (getPolicy sys i).m_flag) ∧
      (self < sys.policies.length →
        (getPolicy (notify sys self) self).m_flag = true)) ∧
    (∃ rd, (suspend_until flag0 ns t0 (some d)).1 = some rd ∧
      rd ≤ max t0 d ∧ (d ≤ t0 → rd = t0)) := by
  refine ⟨⟨rfl, rfl⟩, ?_, ?_, ?_, ?_⟩
  · intro r h
    simp only [suspend_until] at h
    cases flag0 with
    | true => simp [flagAt]
    | false =>
        unfold waitForeverReturn at h
        simp at h
        rcases h with ⟨m, hm, hr⟩
        have hmem := minList_mem ns m hm
        simp [flagAt]
        exact ⟨m, hmem, by omega⟩
  · intro r hf h
    subst hf
    simp only [suspend_until] at h
    unfold waitForeverReturn at h
    simp at h
    rcases h with ⟨m, hm, hr⟩
    exact ⟨m, minList_mem ns m hm, by omega⟩
  · intro sys i self cid ctx props
    refine ⟨m_flag_pushLocal sys self i cid, ?_, ?_, ?_⟩
    · intro out hout
      cases hpin : ctx.pinned with
      | true =>
          rw [awakened_pinned_eq sys self cid ctx props hpin] at hout
          rw [← Option.some.inj hout]
          exact m_flag_pushLocal sys self i cid
      | false =>
          cases hprev : props.m_previously_awakened with
          | true =>
              rw [awakened_subsequent_eq sys self cid ctx props hpin hprev]
                at hout
              rw [← Option.some.inj hout]
              exact m_flag_pushLocal sys self i cid
          | false =>
              cases hslot : sys.s_schedulers[(sys.s_current_scheduler + 1) %
                  sys.s_schedulers.length]? with
              | none =>
                  unfold awakened at hout
                  simp [fiber_context.is_context_pinned, hpin,
                    thread_locked_props.was_previously_awakened, hprev,
                    hslot] at hout
              | some o =>
                  cases o with
                  | none =>
                      unfold awakened at hout
                      simp [fiber_context.is_context_pinned, hpin,
                        thread_locked_props.was_previously_awakened, hprev,
                        hslot] at hout
                  | some t =>
                      rw [awakened_dispatch_eq sys self cid t ctx props hpin
                        hprev hslot] at hout
                      rw [← Option.some.inj hout]
                      exact m_flag_pushLocal _ t i cid
    · intro ctxOf
      cases hq : (getPolicy sys self).m_local_queue with
      | nil => simp [pick_next, hq]
      | cons c rest =>
          simp only [pick_next, hq]
          exact m_flag_updatePolicy sys self i _ (fun p => rfl)
    · intro hlt
      unfold notify
      rw [getPolicy_updatePolicy]
      simp [hlt]
  · refine ⟨waitDeadlineReturn flag0 ns t0 d, rfl, ?_, ?_⟩
    · unfold waitDeadlineReturn
      cases h : waitForeverReturn flag0 ns t0 with
      | none => exact Nat.le_refl _
      | some r => exact Nat.min_le_right _ _
    · intro hd
      unfold waitDeadlineReturn
      have hm : max t0 d = t0 := Nat.max_eq_left hd
      cases h : waitForeverReturn flag0 ns t0 with
      | none =>
          show max t0 d = t0
          exact hm
      | some r =>
          show min r (max t0 d) = t0
          have hr := waitForeverReturn_ge flag0 ns t0 r h
          rw [hm]
          exact Nat.min_eq_right hr

/-- C7 witness: a forever wait entered with the flag down unblocks at the
instant of a concrete notify. -/
theorem C7_suspend_until_notify_witness :
    ((false : Bool) = false ∧
      (suspend_until false [3] 1 none).1 = some 3) ∧
    (∃ u, u ∈ [3] ∧ u ≤ 3) :=
  ⟨⟨rfl, by decide⟩,
    (C7_suspend_until_notify false [3] 1 0).2.2.1 3 rfl (by decide)⟩

/-- C9: constructing with thread_count = 1 allocates a zero-length worker
list, and the first wake of any non-pinned fiber then reaches the dispatch
branch, whose modulo by zero and index into the empty vector have no
defined result (modelled as none); with thread_count at least 2 the list is
non-empty and a populated slot makes the dispatch well-defined. -/
theorem C9_dispatch_needs_two_threads (sys : PoolState) (self cid : Nat)
    (ctx : fiber_context) (props : thread_locked_props)
    (hempty : sys.s_schedulers = [])
    (hpin : ctx.pinned = false)
    (hfst : props.m_previously_awakened = false) :
    freshSchedulers 1 = [] ∧
    awakened sys self cid ctx props = none ∧
    (∀ tc, 2 ≤ tc → 1 ≤ (freshSchedulers tc).length) ∧
    (∀ (sys2 : PoolState) (target : Nat),
      sys2.s_schedulers[(sys2.s_current_scheduler + 1) %
        sys2.s_schedulers.length]? = some (some target) →
      (awakened sys2 self cid ctx props).isSome = true) := by
  refine ⟨rfl, ?_, ?_, ?_⟩
  · unfold awakened
    simp [fiber_context.is_context_pinned, hpin,
      thread_locked_props.was_previously_awakened, hfst, hempty]
  · intro tc htc
    simp [freshSchedulers]
    omega
  · intro sys2 target hslot
    rw [awakened_dispatch_eq sys2 self cid target ctx props hpin hfst hslot]
    rfl

/-- C9 witness: thread_count = 1 concretely, with a first wake failing. -/
theorem C9_dispatch_needs_two_threads_witness :
    ((initialPool 1 []).s_schedulers = [] ∧
      (⟨false, none⟩ : fiber_context).pinned = false ∧
      (⟨false⟩ : thread_locked_props).m_previously_awakened = false) ∧
    awakened (initialPool 1 []) 0 5 ⟨false, none⟩ ⟨false⟩ = none :=
  ⟨⟨by decide, by decide, by decide⟩,
    (C9_dispatch_needs_two_threads (initialPool 1 []) 0 5 ⟨false, none⟩ ⟨false⟩
      (by decide) (by decide) (by decide)).2.1⟩

/-- C10: registration and dispatch share s_current_scheduler, which starts
at 0; each registration post-increments it, so after all thread_count - 1
workers register it equals the worker-list length; each dispatch then
advances it by one modulo that length, so with at least two workers the
first dispatch lands on slot 1 and slot 0 is reached only on the
length-th dispatch of the round-robin rotation. -/
theorem C10_rotation_starts_at_slot_one (tc : Nat)
    (ps : List thread_locked_scheduler) (pids : List Nat)
    (hlen : pids.length = tc - 1) (hw : 2 ≤ tc - 1) :
    (initialPool tc ps).s_current_scheduler = 0 ∧
    (∀ (sys : PoolState) (pid : Nat),
      (registerWorker sys pid).s_current_scheduler =
        sys.s_current_scheduler + 1) ∧
    (registerAll (initialPool tc ps) pids).s_current_scheduler =
      (registerAll (initialPool tc ps) pids).s_schedulers.length ∧
    (∀ (sys : PoolState) (self cid : Nat) (ctx : fiber_context)
        (props : thread_locked_props) out,
      ctx.pinned = false → props.m_previously_awakened = false →
      awakened sys self cid ctx props = some out →
      out.1.s_current_scheduler =
        (sys.s_current_scheduler + 1) % sys.s_schedulers.length) ∧
    cursorAfterDispatches (tc - 1) (tc - 1) 1 = 1 ∧
    (∀ k, 1 ≤ k → k < tc - 1 →
      cursorAfterDispatches (tc - 1) (tc - 1) k ≠ 0) ∧
    cursorAfterDispatches (tc - 1) (tc - 1) (tc - 1) = 0 := by
  refine ⟨rfl, fun sys pid => rfl, ?_, ?_, ?_, ?_, ?_⟩
  · rw [registerAll_cursor, registerAll_length]
    simp [initialPool, freshSchedulers]
    omega
  · intro sys self cid ctx props out hpin hfst hout
    cases hslot : sys.s_schedulers[(sys.s_current_scheduler + 1) %
        sys.s_schedulers.length]? with
    | none =>
        unfold awakened at hout
        simp [fiber_context.is_context_pinned, hpin,
          thread_locked_props.was_previously_awakened, hfst, hslot] at hout
    | some o =>
        cases o with
        | none =>
            unfold awakened at hout
            simp [fiber_context.is_context_pinned, hpin,
              thread_locked_props.was_previously_awakened, hfst, hslot] at hout
        | some t =>
            rw [awakened_dispatch_eq sys self cid t ctx props hpin hfst hslot]
              at hout
            rw [← Option.some.inj hout]
            rfl
  · have h5 := cursorAfterDispatches_formula (tc - 1) 0 (tc - 1)
    simp at h5
    rw [h5]
    exact Nat.mod_eq_of_lt (by omega)
  · intro k hk1 hk2
    cases k with
    | zero => omega
    | succ k2 =>
        have h6 := cursorAfterDispatches_formula (tc - 1) k2 (tc - 1)
        rw [h6, Nat.add_mod_left]
        rw [Nat.mod_eq_of_lt (by omega)]
        omega
  · have heq : tc - 2 + 1 = tc - 1 := by omega
    have h7 := cursorAfterDispatches_formula (tc - 1) (tc - 2) (tc - 1)
    rw [heq] at h7
    rw [h7, Nat.add_mod_left]
    exact Nat.mod_self _

/-- C10 witness: thread_count = 4, so three workers; the rotation visits
slots 1, 2 and reaches slot 0 on the third dispatch. -/
theorem C10_rotation_starts_at_slot_one_witness :
    (([10, 11, 12] : List Nat).length = 4 - 1 ∧ 2 ≤ 4 - 1) ∧
    (cursorAfterDispatches (4 - 1) (4 - 1) 1 = 1 ∧
      cursorAfterDispatches (4 - 1) (4 - 1) (4 - 1) = 0) :=
  ⟨⟨by decide, by decide⟩,
    ⟨(C10_rotation_starts_at_slot_one 4 [] [10, 11, 12] (by decide)
        (by decide)).2.2.2.2.1,
      (C10_rotation_starts_at_slot_one 4 [] [10, 11, 12] (by decide)
        (by decide)).2.2.2.2.2.2⟩⟩

end TLS
